import Mathlib

/-!
# Verification of the go_server request-lifecycle coordinator

This file gives a shallow embedding of the Go HTTP server in this repository
(`src/unnamed/part_000` — which contains the request dispatcher, the
shutdown/drain coordinator and the stats endpoint — and the `hashMethodHandler`
revision contained in the same file) and proves, or refutes, the specification
claims about it.

The embedding conventions:
* Go `int` / `int32` / `int64` counters are modelled as `Int` (the claims at
  hand concern signs and ordering, never wrap-around, and every decrement in
  the code is matched to a prior increment).
* Go `strings.Split(s, "/")` is embedded as `goSplit '/'` on the character
  list of the string, with Go's semantics (`Split("", "/") = [""]`,
  `Split("/", "/") = ["", ""]`).
* Go map reads return the zero value (`""` for strings) on a missing key;
  map types are embedded as functions into `Option`, with `Option.getD ""`
  at Go read sites.
* Go integer division truncates toward zero and panics on a zero divisor;
  it is embedded as an `Option`-valued division.
* The mutex-protected critical sections of the source
  (`incOutstandingAndCheckForShutdown`, `decOutstandingAndCheckForShutdown`,
  `shutdown`, the `count++` block of `hash`, the map write of `performHash`)
  are the atomic steps of the transition systems below; interleavings of
  concurrent requests are arbitrary sequences of those steps.
* The SHA-512/base64 digest computation of `performHash` is abstracted as an
  arbitrary function `digest : String → String`; no claim depends on its
  value.
-/

/-! ## Go string primitives -/

/-- Go `strings.Split(s, sep)` for a one-character separator, on the
character list of `s`.  `goSplit sep [] = [[]]` matches Go's
`Split("", sep) = [""]`. -/
def goSplit (sep : Char) : List Char → List (List Char)
  | [] => [[]]
  | c :: cs =>
    if c = sep then [] :: goSplit sep cs
    else
      match goSplit sep cs with
      | [] => [[c]]
      | g :: gs => (c :: g) :: gs

/-- `strings.Split(uri, "/")` as used by `handler`, `hash` and
`hashWithQualifier`: the split segments, back as strings. -/
def splitSlash (s : String) : List String :=
  (goSplit '/' s.data).map List.asString

/-- The UTF-8 byte width of one character (Go strings are byte strings;
`len` counts bytes). -/
def utf8Width (c : Char) : Nat :=
  if c.toNat ≤ 0x7F then 1
  else if c.toNat ≤ 0x7FF then 2
  else if c.toNat ≤ 0xFFFF then 3
  else 4

/-- Go `len(s)` for a string: its UTF-8 byte length. -/
def goLen (s : String) : Nat :=
  s.data.foldl (fun n c => n + utf8Width c) 0

/-- Go integer division (`/` on `int64`): truncation toward zero; a zero
divisor is a run-time panic, embedded as `none`. -/
def goDivInt (a b : Int) : Option Int :=
  if b = 0 then none else some (Int.tdiv a b)

/-! ## DrainGate: `outstandingRequests`, `shutdownRequested` and the
shutdown-ready signal (src/unnamed/part_000, first file) -/

namespace DrainGate

/-- The mutex-protected pair of the source
(`var outstandingRequests int32 = 0`, `var shutdownRequested = false`),
together with ghost bookkeeping of the admitted requests that are still
between their `incOutstandingAndCheckForShutdown` and
`decOutstandingAndCheckForShutdown` calls, and a ghost count of
`httpShutdownRequested.Done()` calls (the shutdown-ready signal). -/
structure GateState where
  shutdownRequested : Bool
  outstandingRequests : Int
  /-- ghost: admitted non-`/shutdown` requests whose handler has not yet
  released the gate. -/
  nActive : Nat
  /-- ghost: admitted `/shutdown` requests whose `shutdown` body has not yet
  run. -/
  sPre : Nat
  /-- ghost: admitted `/shutdown` requests whose `shutdown` body has run but
  which have not yet released the gate. -/
  sPost : Nat
  /-- ghost: how many times `httpShutdownRequested.Done()` has been called. -/
  signals : Nat

/-- The state at process start. -/
def initGate : GateState :=
  { shutdownRequested := false, outstandingRequests := 0,
    nActive := 0, sPre := 0, sPost := 0, signals := 0 }

/-- `incOutstandingAndCheckForShutdown` of the source: under the mutex, if
`shutdownRequested` is set return `true` (reject) without touching the
counter, otherwise increment `outstandingRequests` and return `false`.
The returned pair is (`shuttingDown`, new counter value). -/
def incOutstandingAndCheckForShutdown (shutdownRequested : Bool)
    (outstandingRequests : Int) : Bool × Int :=
  if shutdownRequested then (true, outstandingRequests)
  else (false, outstandingRequests + 1)

/-- `decOutstandingAndCheckForShutdown` of the source: under the mutex,
decrement `outstandingRequests`; if `shutdownRequested` is set and the
counter has reached zero, call `httpShutdownRequested.Done()`.  The returned
pair is (new counter value, new signal count). -/
def decOutstandingAndCheckForShutdown (shutdownRequested : Bool)
    (outstandingRequests : Int) (signals : Nat) : Int × Nat :=
  let out := outstandingRequests - 1
  if shutdownRequested = true ∧ out = 0 then (out, signals + 1)
  else (out, signals)

/-- The body of the `shutdown` handler: under the mutex, set
`shutdownRequested`; if `outstandingRequests` is zero, call
`httpShutdownRequested.Done()`.  The returned pair is (new flag, new signal
count). -/
def shutdownBody (outstandingRequests : Int) (signals : Nat) : Bool × Nat :=
  (true, if outstandingRequests = 0 then signals + 1 else signals)

/-- Post-state of an admission (`incOutstandingAndCheckForShutdown` returned
`false`) of a request that is not `/shutdown`. -/
def admitNormalPost (s : GateState) : GateState :=
  { s with
    outstandingRequests :=
      (incOutstandingAndCheckForShutdown s.shutdownRequested
        s.outstandingRequests).2,
    nActive := s.nActive + 1 }

/-- Post-state of an admission of a `/shutdown` request. -/
def admitShutdownPost (s : GateState) : GateState :=
  { s with
    outstandingRequests :=
      (incOutstandingAndCheckForShutdown s.shutdownRequested
        s.outstandingRequests).2,
    sPre := s.sPre + 1 }

/-- Post-state of one admitted `/shutdown` request running the `shutdown`
handler body. -/
def shutdownBodyPost (s : GateState) : GateState :=
  { s with
    shutdownRequested := (shutdownBody s.outstandingRequests s.signals).1,
    signals := (shutdownBody s.outstandingRequests s.signals).2,
    sPre := s.sPre - 1,
    sPost := s.sPost + 1 }

/-- Post-state of `decOutstandingAndCheckForShutdown` run by an admitted
non-`/shutdown` request. -/
def releaseNormalPost (s : GateState) : GateState :=
  { s with
    outstandingRequests :=
      (decOutstandingAndCheckForShutdown s.shutdownRequested
        s.outstandingRequests s.signals).1,
    signals :=
      (decOutstandingAndCheckForShutdown s.shutdownRequested
        s.outstandingRequests s.signals).2,
    nActive := s.nActive - 1 }

/-- Post-state of `decOutstandingAndCheckForShutdown` run by an admitted
`/shutdown` request after its body. -/
def releaseShutdownPost (s : GateState) : GateState :=
  { s with
    outstandingRequests :=
      (decOutstandingAndCheckForShutdown s.shutdownRequested
        s.outstandingRequests s.signals).1,
    signals :=
      (decOutstandingAndCheckForShutdown s.shutdownRequested
        s.outstandingRequests s.signals).2,
    sPost := s.sPost - 1 }

/-- One atomic step of the drain gate, as taken by the top-level `handler`:
every incoming request first runs `incOutstandingAndCheckForShutdown`; if
rejected it is answered with 503 and touches nothing; if admitted it later
runs its handler body (for `/shutdown`, the flag-setting `shutdown` body)
and finally `decOutstandingAndCheckForShutdown`. -/
inductive GStep : GateState → GateState → Prop
  | admitNormal (s : GateState) (h : s.shutdownRequested = false) :
      GStep s (admitNormalPost s)
  | admitShutdown (s : GateState) (h : s.shutdownRequested = false) :
      GStep s (admitShutdownPost s)
  | rejectRequest (s : GateState) (h : s.shutdownRequested = true) :
      GStep s s
  | runShutdownBody (s : GateState) (h : 0 < s.sPre) :
      GStep s (shutdownBodyPost s)
  | releaseNormal (s : GateState) (h : 0 < s.nActive) :
      GStep s (releaseNormalPost s)
  | releaseShutdown (s : GateState) (h : 0 < s.sPost) :
      GStep s (releaseShutdownPost s)

/-- Reachability from the process-start state. -/
def Reachable (s : GateState) : Prop :=
  Relation.ReflTransGen GStep initGate s

/-- Inductive invariant of the drain gate. -/
def GateInv (s : GateState) : Prop :=
  s.outstandingRequests = (s.nActive : Int) + s.sPre + s.sPost ∧
  s.signals ≤ 1 ∧
  (s.signals = 1 → s.shutdownRequested = true ∧ s.outstandingRequests = 0) ∧
  (s.shutdownRequested = false → s.signals = 0 ∧ s.sPost = 0) ∧
  (s.shutdownRequested = true → s.outstandingRequests = 0 → s.signals = 1)

theorem gateInv_init : GateInv initGate := by
  simp [GateInv, initGate]

end DrainGate

/-! ## Hash method handler (src/unnamed/part_000, `hashMethodHandler`
revision: `count`, `totalTime`, `hashedPasswords`, `hash`,
`hashWithQualifier`, `performHash`, `returnHashedPassword`,
`validateFormData`, `measurePostTime`, `stats`) -/

namespace HashSrv

/-- The responses the hash handlers write: the allocated handle (POST /hash
success), a stored digest (GET /hash/{id} hit), or the error bodies
`{"error": 404}`, `{"error": 412}`, `{"error": 422}`. -/
inductive HashResp where
  | handle (n : Int)
  | digestStr (d : String)
  | err404
  | err412
  | err422
  deriving DecidableEq

/-- `const MaximumAcceptablePasswordLength = 128`. -/
def MaximumAcceptablePasswordLength : Nat := 128

/-- `validateFormData`: the loop over the one required form field
(`password`) sets `success = false` if the field value is empty (Go
`FormValue` returns `""` for a missing field); then, if still successful,
the password's byte length is checked against
`MaximumAcceptablePasswordLength`. -/
def validateFormData (password : String) : Bool :=
  let success := if goLen password = 0 then false else true
  if success then
    if goLen password > MaximumAcceptablePasswordLength then false
    else success
  else success

/-- The mutable state of the hash handler: `var count = 0`, the
`totalTime` latency accumulator, the set of spawned `performHash`
goroutines that have not yet run (identifier and password of each), and the
`hashedPasswords` map. -/
structure SrvState where
  count : Int
  totalTime : Int
  pending : List (Int × String)
  hashedPasswords : Int → Option String

/-- The state at process start. -/
def initState : SrvState :=
  { count := 0, totalTime := 0, pending := [], hashedPasswords := fun _ => none }

/-- `measurePostTime`, deferred at the top of `hash`: adds the elapsed
handler time to `totalTime` (under `mu`), on every invocation of `hash`,
successful or not. -/
def measurePostTime (elapsed totalTime : Int) : Int :=
  totalTime + elapsed

/-- The `hash` handler (POST /hash).  It re-splits the request URI, parses
the form, and: if `validateFormData` fails answers `{"error": 412}`; else if
the URI does not split into exactly two segments answers `{"error": 422}`;
else atomically increments `count`, answers the new value as the handle, and
spawns `go performHash(handle, password)`.  The deferred `measurePostTime`
adds the handler's elapsed time (`elapsed`, a wall-clock input) to
`totalTime` on every path. -/
def hash (uri password : String) (elapsed : Int) (s : SrvState) :
    HashResp × SrvState :=
  let methodStrings := splitSlash uri
  let (resp, s') :=
    if validateFormData password then
      if methodStrings.length = 2 then
        let tmp := s.count + 1
        (HashResp.handle tmp,
          { s with count := tmp, pending := (tmp, password) :: s.pending })
      else (HashResp.err422, s)
    else (HashResp.err412, s)
  (resp, { s' with totalTime := measurePostTime elapsed s'.totalTime })

/-- The body of one spawned `performHash(identifier, password)` goroutine:
after its sleep it computes the digest (abstracted as `digest`) and, under
`passwordMutex`, writes it into `hashedPasswords[identifier]`. -/
def performHash (digest : String → String) (t : Int × String) (s : SrvState) :
    SrvState :=
  { s with
    pending := s.pending.erase t,
    hashedPasswords := fun k =>
      if k = t.1 then some (digest t.2) else s.hashedPasswords k }

/-- The numeric value of a decimal digit character, if it is one. -/
def digitVal (c : Char) : Option Nat :=
  if '0' ≤ c ∧ c ≤ '9' then some (c.toNat - '0'.toNat) else none

/-- A non-empty all-digit character list read as a decimal number. -/
def parseDigits (cs : List Char) : Option Nat :=
  if cs.isEmpty then none
  else cs.foldl (fun acc c => acc.bind fun n => (digitVal c).map fun d => 10 * n + d)
    (some 0)

/-- Go `strconv.ParseInt(s, 10, 64)` without the bit-size bound: an optional
sign followed by at least one decimal digit. -/
def parseIntDec (s : String) : Option Int :=
  match s.data with
  | '+' :: rest => (parseDigits rest).map fun n => (n : Int)
  | '-' :: rest => (parseDigits rest).map fun n => -(n : Int)
  | cs => (parseDigits cs).map fun n => (n : Int)

/-- Go `strconv.ParseInt(s, 10, 32)` as called by `hashWithQualifier`: a
signed decimal integer, erring (so answering 422) when the value does not
fit a signed 32-bit integer. -/
def parseInt32 (s : String) : Option Int :=
  (parseIntDec s).bind fun v =>
    if -(2 ^ 31) ≤ v ∧ v ≤ 2 ^ 31 - 1 then some v else none

/-- `returnHashedPassword`: reads `hashedPasswords[identifier]` (a Go map
read, yielding `""` when the key is absent) and answers `{"error": 404}` on
the empty string, else the stored digest. -/
def returnHashedPassword (s : SrvState) (identifier : Int) : HashResp :=
  let password := (s.hashedPasswords identifier).getD ""
  if password = "" then HashResp.err404 else HashResp.digestStr password

/-- The `hashWithQualifier` handler (GET /hash/{id}): re-splits the URI; if
it does not split into exactly three segments answers `{"error": 422}`;
otherwise parses the third segment with `strconv.ParseInt(_, 10, 32)` and on
error answers `{"error": 422}`, on success looks the value up. -/
def hashWithQualifier (uri : String) (s : SrvState) : HashResp :=
  let methodStrings := splitSlash uri
  match methodStrings with
  | [_, _, q] =>
    match parseInt32 q with
    | some i => returnHashedPassword s i
    | none => HashResp.err422
  | _ => HashResp.err422

/-- The `stats` handler (GET /stats): under `mu` reads `count` and computes
`avg := totalTime / int64(count)` — Go integer division, which panics
(`none`) when `count` is zero — answering `{"total": count, "average":
avg}`. -/
def stats (count totalTime : Int) : Option (Int × Int) :=
  let tmp := count
  match goDivInt totalTime tmp with
  | none => none
  | some avg => some (tmp, avg)

/-- One atomic step of the hash subsystem: either one `hash` handler
invocation (its `count++` block is a single critical section under `mu`; the
spawned goroutine is recorded in `pending`), or the completion of one
spawned `performHash` goroutine (its map write is a single critical section
under `passwordMutex`). -/
inductive HStep (digest : String → String) : SrvState → SrvState → Prop
  | post (uri password : String) (elapsed : Int) (s : SrvState) :
      HStep digest s (hash uri password elapsed s).2
  | complete (t : Int × String) (s : SrvState) (h : t ∈ s.pending) :
      HStep digest s (performHash digest t s)

/-- Reachability of the hash subsystem from process start. -/
def HReachable (digest : String → String) (s : SrvState) : Prop :=
  Relation.ReflTransGen (HStep digest) initState s

/-- Inductive invariant of the hash subsystem: the counter is non-negative;
every pending `performHash` task carries an identifier in `[1, count]` whose
map entry is still absent; pending identifiers are pairwise distinct; and
every present map key lies in `[1, count]`. -/
def SrvInv (s : SrvState) : Prop :=
  0 ≤ s.count ∧
  (∀ t ∈ s.pending, 1 ≤ t.1 ∧ t.1 ≤ s.count ∧ s.hashedPasswords t.1 = none) ∧
  (s.pending.map Prod.fst).Nodup ∧
  (∀ k, s.hashedPasswords k ≠ none → 1 ≤ k ∧ k ≤ s.count)

/-- A run of POST /hash invocations: each list entry is
(request URI, password form value, elapsed handler time); the responses are
collected in order. -/
def runPosts : List (String × String × Int) → SrvState → List HashResp × SrvState
  | [], s => ([], s)
  | (uri, password, elapsed) :: rest, s =>
    let (r, s') := hash uri password elapsed s
    let (rs, s'') := runPosts rest s'
    (r :: rs, s'')

/-- The handles among a list of responses, in order. -/
def handlesOf (rs : List HashResp) : List Int :=
  rs.filterMap fun r =>
    match r with
    | HashResp.handle n => some n
    | _ => none

/-- Whether one POST /hash invocation allocates a handle (form data valid
and URI exactly `/hash`-shaped). -/
def allocates (e : String × String × Int) : Bool :=
  validateFormData e.2.1 && decide ((splitSlash e.1).length = 2)

end HashSrv

/-! ## Request dispatcher (src/unnamed/part_000, first file: `initialize`
and `handler`) -/

namespace Dispatch

/-- The handler functions that can be registered in the routing maps. -/
inductive HandlerTag where
  | hashH
  | hashWithQualifierH
  | statsH
  | shutdownH
  | unsupportedRequestH
  | verbNotSupportedH
  deriving DecidableEq

/-- `const HashMethod = "hash"` etc. -/
def HashMethod : String := "hash"

def ShutdownMethod : String := "shutdown"

def StatsMethod : String := "stats"

def HttpGetVerb : String := "GET"

def HttpPostVerb : String := "POST"

/-- `postHandlerMap` as filled by `initialize`. -/
def postHandlerMap : String → Option HandlerTag := fun m =>
  if m = HashMethod then some HandlerTag.hashH
  else if m = ShutdownMethod then some HandlerTag.shutdownH
  else if m = "" then some HandlerTag.unsupportedRequestH
  else none

/-- `getHandlerMap` as filled by `initialize`. -/
def getHandlerMap : String → Option HandlerTag := fun m =>
  if m = HashMethod then some HandlerTag.hashWithQualifierH
  else if m = StatsMethod then some HandlerTag.statsH
  else if m = ShutdownMethod then some HandlerTag.shutdownH
  else none

/-- `genericHandlerMap` as filled by `initialize`. -/
def genericHandlerMap : String → Option HandlerTag := fun m =>
  if m = ShutdownMethod then some HandlerTag.shutdownH
  else none

/-- `verbHttpMap` as filled by `initialize`: keyed by the literal strings
`"GET"`, `"POST"` and `"generic"`. -/
def verbHttpMap : String → Option (String → Option HandlerTag) := fun v =>
  if v = HttpGetVerb then some getHandlerMap
  else if v = HttpPostVerb then some postHandlerMap
  else if v = "generic" then some genericHandlerMap
  else none

/-- The routing part of `handler` for an admitted request: split the request
URI on `/`; if fewer than two segments result, `unsupportedRequest` (405);
otherwise select the sub-map by `r.Method` — an unknown verb gets
`verbNotSupported` (405 plus allowed-verb list) — and look the second
segment up in it, an unknown method getting `unsupportedRequest` (405). -/
def handlerDispatch (verb uri : String) : HandlerTag :=
  let methodStrings := splitSlash uri
  match methodStrings with
  | _ :: m1 :: _ =>
    match verbHttpMap verb with
    | some handlerMap =>
      match handlerMap m1 with
      | some httpHandler => httpHandler
      | none => HandlerTag.unsupportedRequestH
    | none => HandlerTag.verbNotSupportedH
  | _ => HandlerTag.unsupportedRequestH

end Dispatch

/-! ## Theorems -/

namespace DrainGate

theorem gateInv_admitNormal (s : GateState) (h : s.shutdownRequested = false)
    (hinv : GateInv s) : GateInv (admitNormalPost s) := by
  obtain ⟨hsum, hle, hone, hflagf, hdone⟩ := hinv
  obtain ⟨hz, hp⟩ := hflagf h
  simp only [GateInv, admitNormalPost, incOutstandingAndCheckForShutdown]
  simp [h, hz, hp]
  omega

theorem gateInv_admitShutdown (s : GateState) (h : s.shutdownRequested = false)
    (hinv : GateInv s) : GateInv (admitShutdownPost s) := by
  obtain ⟨hsum, hle, hone, hflagf, hdone⟩ := hinv
  obtain ⟨hz, hp⟩ := hflagf h
  simp only [GateInv, admitShutdownPost, incOutstandingAndCheckForShutdown]
  simp [h, hz, hp]
  omega

theorem gateInv_runShutdownBody (s : GateState) (h : 0 < s.sPre)
    (hinv : GateInv s) : GateInv (shutdownBodyPost s) := by
  obtain ⟨hsum, hle, hone, hflagf, hdone⟩ := hinv
  have hpos : (0 : Int) < s.outstandingRequests := by omega
  have hnz : ¬ s.outstandingRequests = 0 := by omega
  have hs0 : s.signals = 0 := by
    by_contra hc
    have h1 : s.signals = 1 := by omega
    exact hnz (hone h1).2
  simp only [GateInv, shutdownBodyPost, shutdownBody]
  simp [hnz, hs0]
  omega

theorem gateInv_releaseNormal (s : GateState) (h : 0 < s.nActive)
    (hinv : GateInv s) : GateInv (releaseNormalPost s) := by
  obtain ⟨hsum, hle, hone, hflagf, hdone⟩ := hinv
  have hpos : (0 : Int) < s.outstandingRequests := by omega
  have hs0 : s.signals = 0 := by
    by_contra hc
    have h1 : s.signals = 1 := by omega
    have := (hone h1).2
    omega
  simp only [GateInv, releaseNormalPost, decOutstandingAndCheckForShutdown]
  cases hb : s.shutdownRequested with
  | false =>
    obtain ⟨hz, hp⟩ := hflagf hb
    simp [hb, hz, hp]
    omega
  | true =>
    by_cases hcond : s.outstandingRequests - 1 = 0
    · simp [hb, hcond]
      omega
    · simp [hb, hcond, hs0]
      omega

theorem gateInv_releaseShutdown (s : GateState) (h : 0 < s.sPost)
    (hinv : GateInv s) : GateInv (releaseShutdownPost s) := by
  obtain ⟨hsum, hle, hone, hflagf, hdone⟩ := hinv
  have hpos : (0 : Int) < s.outstandingRequests := by omega
  have hs0 : s.signals = 0 := by
    by_contra hc
    have h1 : s.signals = 1 := by omega
    have := (hone h1).2
    omega
  have hflag : s.shutdownRequested = true := by
    cases hb : s.shutdownRequested
    · have := (hflagf hb).2
      omega
    · rfl
  simp only [GateInv, releaseShutdownPost, decOutstandingAndCheckForShutdown]
  by_cases hcond : s.outstandingRequests - 1 = 0
  · simp [hflag, hcond]
    omega
  · simp [hflag, hcond, hs0]
    omega

theorem gateInv_step {s s' : GateState} (hinv : GateInv s) (hstep : GStep s s') :
    GateInv s' := by
  cases hstep with
  | admitNormal h => exact gateInv_admitNormal _ h hinv
  | admitShutdown h => exact gateInv_admitShutdown _ h hinv
  | rejectRequest h => exact hinv
  | runShutdownBody h => exact gateInv_runShutdownBody _ h hinv
  | releaseNormal h => exact gateInv_releaseNormal _ h hinv
  | releaseShutdown h => exact gateInv_releaseShutdown _ h hinv

theorem gateInv_of_reachable {s : GateState} (h : Reachable s) : GateInv s := by
  induction h with
  | refl => exact gateInv_init
  | tail _ hstep ih => exact gateInv_step ih hstep

theorem decOutstanding_fst (f : Bool) (o : Int) (g : Nat) :
    (decOutstandingAndCheckForShutdown f o g).1 = o - 1 := by
  simp only [decOutstandingAndCheckForShutdown]
  split <;> rfl

/-- C1: the shutdown-ready signal (`httpShutdownRequested.Done()`) is
one-shot: in every reachable state of the drain gate it has fired at most
once; whenever the shutdown flag is set and the outstanding counter has
drained to zero it has fired exactly once, regardless of how the admitted
requests and `shutdown` bodies interleaved; and running a further `shutdown`
body when the flag is already set leaves the flag set and does not signal
again (idempotence). -/
theorem shutdown_signal_fires_exactly_once (s : GateState) (hs : Reachable s) :
    s.signals ≤ 1 ∧
    (s.shutdownRequested = true → s.outstandingRequests = 0 → s.signals = 1) ∧
    (s.shutdownRequested = true → 0 < s.sPre →
      (shutdownBodyPost s).signals = s.signals ∧
      (shutdownBodyPost s).shutdownRequested = true) := by
  obtain ⟨hsum, hle, hone, hflagf, hdone⟩ := gateInv_of_reachable hs
  refine ⟨hle, hdone, ?_⟩
  intro _ hpre
  have hnz : ¬ s.outstandingRequests = 0 := by omega
  exact ⟨by simp [shutdownBodyPost, shutdownBody, hnz], rfl⟩

theorem shutdown_signal_fires_exactly_once_witness :
    (shutdownBodyPost
        (shutdownBodyPost (admitShutdownPost (admitShutdownPost initGate)))).signals =
      (shutdownBodyPost (admitShutdownPost (admitShutdownPost initGate))).signals ∧
    (shutdownBodyPost (admitShutdownPost (admitShutdownPost initGate))).signals ≤ 1 := by
  have h := shutdown_signal_fires_exactly_once
    (shutdownBodyPost (admitShutdownPost (admitShutdownPost initGate)))
    (Relation.ReflTransGen.tail
      (Relation.ReflTransGen.tail
        (Relation.ReflTransGen.tail Relation.ReflTransGen.refl
          (GStep.admitShutdown _ rfl))
        (GStep.admitShutdown _ rfl))
      (GStep.runShutdownBody _ (by decide)))
  exact ⟨(h.2.2 rfl (by decide)).1, h.1⟩

/-- C2: `incOutstandingAndCheckForShutdown` (the `Admit` critical section,
executed atomically under `requestsMutex`) rejects without touching the
counter when the shutdown flag is set, and increments the counter by exactly
one and admits when it is not — so an admission that observed the flag false
never loses its increment, and a rejected request never increments. -/
theorem admit_is_atomic_check_and_increment (flag : Bool) (out : Int) :
    (flag = true → incOutstandingAndCheckForShutdown flag out = (true, out)) ∧
    (flag = false → incOutstandingAndCheckForShutdown flag out = (false, out + 1)) := by
  constructor <;> intro h <;> simp [incOutstandingAndCheckForShutdown, h]

theorem admit_is_atomic_check_and_increment_witness :
    incOutstandingAndCheckForShutdown true 5 = (true, 5) ∧
    incOutstandingAndCheckForShutdown false 5 = (false, 6) :=
  ⟨(admit_is_atomic_check_and_increment true 5).1 rfl,
   (admit_is_atomic_check_and_increment false 5).2 rfl⟩

/-- C3: joint state invariant of the (shutdownRequested, outstandingRequests)
pair: in every reachable state the counter is non-negative, and across any
single step taken from a state with the flag set, the flag never reverts to
false and the counter never increases. -/
theorem drain_gate_state_invariants (s : GateState) (hs : Reachable s) :
    0 ≤ s.outstandingRequests ∧
    ∀ s', GStep s s' → s.shutdownRequested = true →
      s'.shutdownRequested = true ∧ s'.outstandingRequests ≤ s.outstandingRequests := by
  obtain ⟨hsum, hle, hone, hflagf, hdone⟩ := gateInv_of_reachable hs
  refine ⟨by omega, ?_⟩
  intro s' hstep hflag
  cases hstep with
  | admitNormal h => rw [hflag] at h; cases h
  | admitShutdown h => rw [hflag] at h; cases h
  | rejectRequest h => exact ⟨hflag, le_refl _⟩
  | runShutdownBody h => exact ⟨rfl, le_refl _⟩
  | releaseNormal h =>
    refine ⟨hflag, ?_⟩
    show (decOutstandingAndCheckForShutdown _ _ _).1 ≤ _
    rw [decOutstanding_fst]
    omega
  | releaseShutdown h =>
    refine ⟨hflag, ?_⟩
    show (decOutstandingAndCheckForShutdown _ _ _).1 ≤ _
    rw [decOutstanding_fst]
    omega

theorem drain_gate_state_invariants_witness :
    0 ≤ (shutdownBodyPost (admitShutdownPost initGate)).outstandingRequests ∧
    (releaseShutdownPost (shutdownBodyPost (admitShutdownPost initGate))).shutdownRequested = true := by
  have h := drain_gate_state_invariants (shutdownBodyPost (admitShutdownPost initGate))
    (Relation.ReflTransGen.tail
      (Relation.ReflTransGen.tail Relation.ReflTransGen.refl
        (GStep.admitShutdown _ rfl))
      (GStep.runShutdownBody _ (by decide)))
  exact ⟨h.1, (h.2 _ (GStep.releaseShutdown _ (by decide)) rfl).1⟩

end DrainGate

namespace HashSrv

theorem validateFormData_eq_false_iff (password : String) :
    validateFormData password = false ↔
      goLen password = 0 ∨ MaximumAcceptablePasswordLength < goLen password := by
  by_cases h0 : goLen password = 0 <;>
    by_cases h1 : MaximumAcceptablePasswordLength < goLen password <;>
      simp [validateFormData, h0, h1]

theorem hash_of_alloc (uri password : String) (elapsed : Int) (s : SrvState)
    (hv : validateFormData password = true)
    (hlen : (splitSlash uri).length = 2) :
    hash uri password elapsed s =
      (HashResp.handle (s.count + 1),
        { count := s.count + 1, totalTime := s.totalTime + elapsed,
          pending := (s.count + 1, password) :: s.pending,
          hashedPasswords := s.hashedPasswords }) := by
  simp [hash, hv, hlen, measurePostTime]

theorem hash_of_badpath (uri password : String) (elapsed : Int) (s : SrvState)
    (hv : validateFormData password = true)
    (hlen : (splitSlash uri).length ≠ 2) :
    hash uri password elapsed s =
      (HashResp.err422,
        { count := s.count, totalTime := s.totalTime + elapsed,
          pending := s.pending, hashedPasswords := s.hashedPasswords }) := by
  simp [hash, hv, hlen, measurePostTime]

theorem hash_of_badform (uri password : String) (elapsed : Int) (s : SrvState)
    (hv : validateFormData password = false) :
    hash uri password elapsed s =
      (HashResp.err412,
        { count := s.count, totalTime := s.totalTime + elapsed,
          pending := s.pending, hashedPasswords := s.hashedPasswords }) := by
  simp [hash, hv, measurePostTime]

theorem srvInv_init : SrvInv initState := by
  simp [SrvInv, initState]

theorem srvInv_post (uri password : String) (elapsed : Int) (s : SrvState)
    (hinv : SrvInv s) : SrvInv (hash uri password elapsed s).2 := by
  obtain ⟨hc, hpend, hnd, hdom⟩ := hinv
  by_cases hv : validateFormData password
  · by_cases hlen : (splitSlash uri).length = 2
    · simp only [SrvInv, hash_of_alloc uri password elapsed s hv hlen]
      refine ⟨by omega, ?_, ?_, ?_⟩
      · intro t ht
        rcases List.mem_cons.1 ht with heq | hmem
        · subst heq
          refine ⟨by omega, le_refl _, ?_⟩
          by_cases hnone : s.hashedPasswords (s.count + 1) = none
          · exact hnone
          · have := (hdom _ hnone).2
            omega
        · obtain ⟨h1, h2, h3⟩ := hpend t hmem
          exact ⟨h1, by omega, h3⟩
      · refine List.nodup_cons.2 ⟨?_, hnd⟩
        intro hmem
        rcases List.mem_map.1 hmem with ⟨t, htmem, hteq⟩
        have := (hpend t htmem).2.1
        omega
      · intro k hk
        have := hdom k hk
        exact ⟨this.1, by omega⟩
    · rw [hash_of_badpath uri password elapsed s hv hlen]
      exact ⟨hc, hpend, hnd, hdom⟩
  · rw [hash_of_badform uri password elapsed s (by simpa using hv)]
    exact ⟨hc, hpend, hnd, hdom⟩

theorem srvInv_complete (digest : String → String) (t : Int × String)
    (s : SrvState) (ht : t ∈ s.pending) (hinv : SrvInv s) :
    SrvInv (performHash digest t s) := by
  obtain ⟨hc, hpend, hnd, hdom⟩ := hinv
  have hpnd : s.pending.Nodup := hnd.of_map
  obtain ⟨h1t, h2t, h3t⟩ := hpend t ht
  refine ⟨hc, ?_, ?_, ?_⟩
  · intro u hu
    have hu' : u ≠ t ∧ u ∈ s.pending := (List.Nodup.mem_erase_iff hpnd).1 hu
    obtain ⟨h1u, h2u, h3u⟩ := hpend u hu'.2
    have hne : u.1 ≠ t.1 := by
      intro he
      exact hu'.1 (List.inj_on_of_nodup_map hnd hu'.2 ht he)
    refine ⟨h1u, h2u, ?_⟩
    show (if u.1 = t.1 then some (digest t.2) else s.hashedPasswords u.1) = none
    rw [if_neg hne]
    exact h3u
  · show ((s.pending.erase t).map Prod.fst).Nodup
    exact ((s.pending.erase_sublist t).map Prod.fst).nodup hnd
  · intro k hk
    by_cases hkt : k = t.1
    · exact hkt ▸ ⟨h1t, h2t⟩
    · refine hdom k ?_
      revert hk
      show (if k = t.1 then some (digest t.2) else s.hashedPasswords k) ≠ none → _
      rw [if_neg hkt]
      exact id

theorem srvInv_step (digest : String → String) {s s' : SrvState}
    (hinv : SrvInv s) (hstep : HStep digest s s') : SrvInv s' := by
  cases hstep with
  | post uri password elapsed => exact srvInv_post uri password elapsed _ hinv
  | complete t s ht => exact srvInv_complete digest t _ ht hinv

theorem srvInv_of_reachable {digest : String → String} {s : SrvState}
    (h : HReachable digest s) : SrvInv s := by
  induction h with
  | refl => exact srvInv_init
  | tail _ hstep ih => exact srvInv_step digest ih hstep

end HashSrv

namespace HashSrv

theorem hash_store_unchanged (uri password : String) (elapsed : Int)
    (s : SrvState) :
    (hash uri password elapsed s).2.hashedPasswords = s.hashedPasswords := by
  by_cases hv : validateFormData password
  · by_cases hlen : (splitSlash uri).length = 2
    · rw [hash_of_alloc uri password elapsed s hv hlen]
    · rw [hash_of_badpath uri password elapsed s hv hlen]
  · rw [hash_of_badform uri password elapsed s (by simpa using hv)]

/-- C8: the `hashedPasswords` map (DigestStore) is write-once: in every
reachable state of the hash subsystem, any single further step — a POST
/hash invocation or the completion of a spawned `performHash` task —
preserves every present entry unchanged (no mutation, no removal), and
every still-pending `performHash` task targets a key that is currently
absent, so no two writes ever target the same key. -/
theorem digest_store_write_once (digest : String → String) (s s' : SrvState)
    (hs : HReachable digest s) (hstep : HStep digest s s') :
    (∀ k v, s.hashedPasswords k = some v → s'.hashedPasswords k = some v) ∧
    (∀ t, t ∈ s.pending → s.hashedPasswords t.1 = none) := by
  obtain ⟨hc, hpend, hnd, hdom⟩ := srvInv_of_reachable hs
  refine ⟨?_, fun t ht => (hpend t ht).2.2⟩
  intro k v hk
  cases hstep with
  | post uri password elapsed =>
    rw [hash_store_unchanged]
    exact hk
  | complete t s ht =>
    have hne : k ≠ t.1 := by
      intro he
      rw [he, (hpend t ht).2.2] at hk
      cases hk
    show (if k = t.1 then some (digest t.2) else s.hashedPasswords k) = some v
    rw [if_neg hne]
    exact hk

theorem digest_store_write_once_witness :
    ((hash "/hash" "q" 2
        (performHash (fun _ => "dig") (1, "pw")
          (hash "/hash" "pw" 1 initState).2)).2).hashedPasswords 1 =
      some "dig" := by
  have h := digest_store_write_once (fun _ => "dig")
    (performHash (fun _ => "dig") (1, "pw") (hash "/hash" "pw" 1 initState).2)
    (hash "/hash" "q" 2
      (performHash (fun _ => "dig") (1, "pw") (hash "/hash" "pw" 1 initState).2)).2
    (Relation.ReflTransGen.tail
      (Relation.ReflTransGen.tail Relation.ReflTransGen.refl
        (HStep.post "/hash" "pw" 1 initState))
      (HStep.complete (1, "pw") _ (by decide)))
    (HStep.post "/hash" "q" 2 _)
  exact h.1 1 "dig" (by decide)

/-- C9: in GET /hash/{id} the qualifier is parsed with
`strconv.ParseInt(_, 10, 32)`, i.e. with signed 32-bit bounds, although
handles are 64-bit: for any URI splitting as /hash/{id} whose id is a
decimal integer of value outside [-2^31, 2^31-1] the handler answers 422
(so a handle above 2^31 - 1 could never be retrieved), while an in-range
negative id parses successfully and, in every reachable state (all stored
keys are ≥ 1), misses the store and answers 404, not 422. -/
theorem get_hash_qualifier_int32_bounds (digest : String → String)
    (s : SrvState) (hs : HReachable digest s) (uri idStr : String) (v : Int)
    (hsplit : splitSlash uri = ["", "hash", idStr])
    (hv : parseIntDec idStr = some v) :
    ((v < -(2 ^ 31) ∨ 2 ^ 31 - 1 < v) → hashWithQualifier uri s = HashResp.err422) ∧
    (-(2 ^ 31) ≤ v → v < 0 → hashWithQualifier uri s = HashResp.err404) := by
  obtain ⟨hc, hpend, hnd, hdom⟩ := srvInv_of_reachable hs
  constructor
  · intro hout
    have hcond : ¬(-2147483648 ≤ v ∧ v ≤ 2147483647) := by omega
    simp [hashWithQualifier, hsplit, parseInt32, hv, hcond]
  · intro hge hneg
    have hcond : -2147483648 ≤ v ∧ v ≤ 2147483647 := by omega
    have hnone : s.hashedPasswords v = none := by
      by_cases h : s.hashedPasswords v = none
      · exact h
      · have := (hdom v h).1
        omega
    simp [hashWithQualifier, hsplit, parseInt32, hv, hcond,
      returnHashedPassword, hnone]

theorem get_hash_qualifier_int32_bounds_witness :
    hashWithQualifier "/hash/-7" initState = HashResp.err404 ∧
    hashWithQualifier "/hash/2147483648" initState = HashResp.err422 := by
  have h1 := get_hash_qualifier_int32_bounds (fun _ => "") initState
    Relation.ReflTransGen.refl "/hash/-7" "-7" (-7) (by decide) (by decide)
  have h2 := get_hash_qualifier_int32_bounds (fun _ => "") initState
    Relation.ReflTransGen.refl "/hash/2147483648" "2147483648" (2 ^ 31)
    (by decide) (by decide)
  exact ⟨h1.2 (by norm_num) (by norm_num), h2.1 (by norm_num)⟩

end HashSrv

namespace HashSrv

theorem runPosts_cons (uri password : String) (elapsed : Int)
    (rest : List (String × String × Int)) (s : SrvState) :
    runPosts ((uri, password, elapsed) :: rest) s =
      ((hash uri password elapsed s).1 ::
          (runPosts rest (hash uri password elapsed s).2).1,
        (runPosts rest (hash uri password elapsed s).2).2) := by
  simp [runPosts]

theorem handlesOf_cons_handle (n : Int) (rs : List HashResp) :
    handlesOf (HashResp.handle n :: rs) = n :: handlesOf rs := by
  simp [handlesOf]

theorem handlesOf_cons_err422 (rs : List HashResp) :
    handlesOf (HashResp.err422 :: rs) = handlesOf rs := by
  simp [handlesOf]

theorem handlesOf_cons_err412 (rs : List HashResp) :
    handlesOf (HashResp.err412 :: rs) = handlesOf rs := by
  simp [handlesOf]

theorem runPosts_spec (reqs : List (String × String × Int)) (s : SrvState) :
    List.Chain' (· < ·) (s.count :: handlesOf (runPosts reqs s).1) ∧
    (runPosts reqs s).2.count = s.count + (reqs.countP allocates : Int) ∧
    (runPosts reqs s).2.totalTime = s.totalTime + (reqs.map fun e => e.2.2).sum ∧
    (∀ h, (handlesOf (runPosts reqs s).1).head? = some h → h = s.count + 1) := by
  induction reqs generalizing s with
  | nil =>
    refine ⟨by simp [runPosts, handlesOf], by simp [runPosts], by simp [runPosts], ?_⟩
    intro h hh
    simp [runPosts, handlesOf] at hh
  | cons e rest ih =>
    obtain ⟨uri, password, elapsed⟩ := e
    rw [runPosts_cons]
    by_cases hv : validateFormData password
    · by_cases hlen : (splitSlash uri).length = 2
      · rw [hash_of_alloc uri password elapsed s hv hlen]
        have halloc : allocates (uri, password, elapsed) = true := by
          simp [allocates, hv, hlen]
        obtain ⟨ihchain, ihcount, ihtime, ihhead⟩ :=
          ih { count := s.count + 1, totalTime := s.totalTime + elapsed,
               pending := (s.count + 1, password) :: s.pending,
               hashedPasswords := s.hashedPasswords }
        dsimp only at ihchain ihcount ihtime ihhead ⊢
        rw [handlesOf_cons_handle]
        refine ⟨?_, ?_, ?_, ?_⟩
        · exact List.chain'_cons.2 ⟨by omega, ihchain⟩
        · rw [ihcount, List.countP_cons, halloc]
          have hone : (if (true : Bool) = true then 1 else 0) = 1 := rfl
          rw [hone]
          push_cast
          omega
        · rw [ihtime]
          simp
          omega
        · intro h hh
          simp only [List.head?_cons, Option.some.injEq] at hh
          omega
      · rw [hash_of_badpath uri password elapsed s hv hlen]
        have halloc : allocates (uri, password, elapsed) = false := by
          simp [allocates, hv, hlen]
        obtain ⟨ihchain, ihcount, ihtime, ihhead⟩ :=
          ih { count := s.count, totalTime := s.totalTime + elapsed,
               pending := s.pending, hashedPasswords := s.hashedPasswords }
        dsimp only at ihchain ihcount ihtime ihhead ⊢
        rw [handlesOf_cons_err422]
        refine ⟨ihchain, ?_, ?_, ihhead⟩
        · rw [ihcount, List.countP_cons, halloc]
          push_cast
          omega
        · rw [ihtime]
          simp
          omega
    · rw [hash_of_badform uri password elapsed s (by simpa using hv)]
      have halloc : allocates (uri, password, elapsed) = false := by
        simp [allocates, hv]
      obtain ⟨ihchain, ihcount, ihtime, ihhead⟩ :=
        ih { count := s.count, totalTime := s.totalTime + elapsed,
             pending := s.pending, hashedPasswords := s.hashedPasswords }
      dsimp only at ihchain ihcount ihtime ihhead ⊢
      rw [handlesOf_cons_err412]
      refine ⟨ihchain, ?_, ?_, ihhead⟩
      · rw [ihcount, List.countP_cons, halloc]
        push_cast
        omega
      · rw [ihtime]
        simp
        omega

/-- C4: over any sequence of POST /hash invocations starting at process
start, the handles returned to the valid submissions are pairwise strictly
increasing in order of allocation (each handle strictly greater than every
previously returned one, hence all distinct), and the first handle issued
is 1. -/
theorem handles_strictly_increasing_from_one
    (reqs : List (String × String × Int)) :
    List.Pairwise (· < ·) (handlesOf (runPosts reqs initState).1) ∧
    ∀ h, (handlesOf (runPosts reqs initState).1).head? = some h → h = 1 := by
  obtain ⟨hchain, _, _, hhead⟩ := runPosts_spec reqs initState
  have hpair : List.Pairwise (· < ·)
      (initState.count :: handlesOf (runPosts reqs initState).1) :=
    List.chain'_iff_pairwise.1 hchain
  refine ⟨(List.pairwise_cons.1 hpair).2, ?_⟩
  intro h hh
  have := hhead h hh
  simpa [initState] using this

theorem handles_strictly_increasing_from_one_witness :
    List.Pairwise (· < ·)
      (handlesOf (runPosts [("/hash", "a", 2), ("/hash", "b", 3)] initState).1) ∧
    (1 : Int) = 1 := by
  have h := handles_strictly_increasing_from_one [("/hash", "a", 2), ("/hash", "b", 3)]
  exact ⟨h.1, h.2 1 (by decide)⟩

end HashSrv

namespace HashSrv

/-- C5: a POST /hash payload whose password field is missing or empty, or
longer than `MaximumAcceptablePasswordLength` (128) bytes, is answered with
`{"error": 412}` before any handle is allocated: `count` and the spawned
tasks are unchanged, and the next valid submission receives the handle the
failed call would have received (`count + 1`).  (This embeds the
`validateFormData` of the `hashMethodHandler` revision in
src/unnamed/part_000, which carries the maximum-length check.) -/
theorem invalid_password_rejected_without_allocation
    (uri password : String) (elapsed : Int) (s : SrvState)
    (hbad : goLen password = 0 ∨
      MaximumAcceptablePasswordLength < goLen password) :
    (hash uri password elapsed s).1 = HashResp.err412 ∧
    (hash uri password elapsed s).2.count = s.count ∧
    (hash uri password elapsed s).2.pending = s.pending ∧
    ∀ uri' password' elapsed', validateFormData password' = true →
      (splitSlash uri').length = 2 →
      (hash uri' password' elapsed' (hash uri password elapsed s).2).1 =
        HashResp.handle (s.count + 1) := by
  have hv : validateFormData password = false :=
    (validateFormData_eq_false_iff password).2 hbad
  rw [hash_of_badform uri password elapsed s hv]
  refine ⟨rfl, rfl, rfl, ?_⟩
  intro uri' password' elapsed' hv' hlen'
  rw [hash_of_alloc uri' password' elapsed' _ hv' hlen']

set_option maxRecDepth 4000 in
theorem invalid_password_rejected_without_allocation_witness :
    (hash "/hash" "" 1 initState).1 = HashResp.err412 ∧
    (hash "/hash" (String.mk (List.replicate 129 'a')) 1 initState).1 =
      HashResp.err412 ∧
    (hash "/hash" "p" 2 (hash "/hash" "" 1 initState).2).1 =
      HashResp.handle (initState.count + 1) := by
  have h1 := invalid_password_rejected_without_allocation "/hash" "" 1
    initState (Or.inl (by decide))
  have h2 := invalid_password_rejected_without_allocation "/hash"
    (String.mk (List.replicate 129 'a')) 1 initState (Or.inr (by decide))
  exact ⟨h1.1, h2.1, h1.2.2.2 "/hash" "p" 2 (by decide) (by decide)⟩

/-- C10: in the POST /hash handler, form validation is checked before the
path shape: whenever `validateFormData` fails the answer is
`{"error": 412}` whatever the URI looks like (extra path segments
included), and `{"error": 422}` is only ever produced when form validation
passed. -/
theorem form_validation_precedes_path_validation
    (uri password : String) (elapsed : Int) (s : SrvState) :
    (validateFormData password = false →
      (hash uri password elapsed s).1 = HashResp.err412) ∧
    ((hash uri password elapsed s).1 = HashResp.err422 →
      validateFormData password = true) := by
  constructor
  · intro hv
    rw [hash_of_badform uri password elapsed s hv]
  · intro hr
    by_cases hv : validateFormData password
    · exact hv
    · rw [hash_of_badform uri password elapsed s (by simpa using hv)] at hr
      simp at hr

theorem form_validation_precedes_path_validation_witness :
    (hash "/hash/1/2" "" 0 initState).1 = HashResp.err412 :=
  (form_validation_precedes_path_validation "/hash/1/2" "" 0 initState).1
    (by decide)

/-- C6 counterexample: the claim fails on the code in both respects.  With
zero successful submissions `stats` performs `totalTime / count` with
`count = 0` — an unguarded integer division by zero (a run-time fault,
`none`), not a documented fallback.  And a failed submission does record
its handler latency: after one failed (empty password, latency 7) and one
successful (latency 3) submission, `stats` reports average 10, not the
claimed sum of successful latencies over N, which would be 3. -/
theorem stats_unguarded_zero_and_failed_latency_counted :
    stats (runPosts ([] : List (String × String × Int)) initState).2.count
        (runPosts ([] : List (String × String × Int)) initState).2.totalTime =
      none ∧
    stats (runPosts [("/hash", "", 7), ("/hash", "p", 3)] initState).2.count
        (runPosts [("/hash", "", 7), ("/hash", "p", 3)] initState).2.totalTime =
      some (1, 10) ∧
    (10 : Int) ≠ (3 : Int) := by
  refine ⟨by decide, by decide, by decide⟩

/-- C6 amended: after any sequence of POST /hash invocations, `count` is
the number of successful (handle-allocating) submissions N, `totalTime` is
the sum of the recorded handler latencies of ALL invocations (failed ones
included), and `stats` returns `(N, totalTime / N)` with Go
truncated-toward-zero integer division when N ≥ 1; when N = 0 the division
is unguarded and `stats` faults (division by zero) instead of returning a
fallback. -/
theorem stats_returns_count_and_truncated_average
    (reqs : List (String × String × Int)) :
    (runPosts reqs initState).2.count = (reqs.countP allocates : Int) ∧
    (runPosts reqs initState).2.totalTime = (reqs.map fun e => e.2.2).sum ∧
    (0 < reqs.countP allocates →
      stats (runPosts reqs initState).2.count
          (runPosts reqs initState).2.totalTime =
        some ((reqs.countP allocates : Int),
          Int.tdiv ((reqs.map fun e => e.2.2).sum)
            (reqs.countP allocates : Int))) ∧
    (reqs.countP allocates = 0 →
      stats (runPosts reqs initState).2.count
          (runPosts reqs initState).2.totalTime = none) := by
  obtain ⟨_, hcount, htime, _⟩ := runPosts_spec reqs initState
  have hc : (runPosts reqs initState).2.count = (reqs.countP allocates : Int) := by
    rw [hcount]
    simp [initState]
  have ht : (runPosts reqs initState).2.totalTime =
      (reqs.map fun e => e.2.2).sum := by
    rw [htime]
    simp [initState]
  refine ⟨hc, ht, ?_, ?_⟩
  · intro hpos
    have hne : ¬((reqs.countP allocates : Int) = 0) := by omega
    rw [hc, ht]
    simp [stats, goDivInt, hne]
  · intro hzero
    rw [hc, ht, hzero]
    simp [stats, goDivInt]

theorem stats_returns_count_and_truncated_average_witness :
    stats (runPosts [("/hash", "p", 4)] initState).2.count
        (runPosts [("/hash", "p", 4)] initState).2.totalTime = some (1, 4) := by
  have h := (stats_returns_count_and_truncated_average [("/hash", "p", 4)]).2.2.1
    (by decide)
  rw [h]
  decide

end HashSrv

namespace Dispatch

/-- C7 counterexample: the claim fails on the code.  A /shutdown request
issued with a verb other than GET or POST is not caught by the generic
table: `handler` looks up `verbHttpMap[r.Method]` with the literal request
verb, `"DELETE"` matches no key (the generic table sits under the literal
key `"generic"`, which no HTTP verb equals), so the request is answered by
`verbNotSupported` (405 plus the allowed-verb list) and the drain is not
initiated. -/
theorem shutdown_any_verb_counterexample :
    handlerDispatch "DELETE" "/shutdown" = HandlerTag.verbNotSupportedH ∧
    handlerDispatch "DELETE" "/shutdown" ≠ HandlerTag.shutdownH := by
  refine ⟨by decide, by decide⟩

/-- C7 amended: a /shutdown request initiates the drain when issued via GET
or POST; the generic fallback table does map "shutdown" to the shutdown
handler, but it is unreachable — it is only consulted for the literal verb
string "generic" — so every other verb receives `verbNotSupported` (405),
not the shutdown acknowledgment. -/
theorem shutdown_reachable_only_via_get_and_post (verb : String) :
    handlerDispatch HttpGetVerb "/shutdown" = HandlerTag.shutdownH ∧
    handlerDispatch HttpPostVerb "/shutdown" = HandlerTag.shutdownH ∧
    genericHandlerMap ShutdownMethod = some HandlerTag.shutdownH ∧
    (verb ≠ HttpGetVerb → verb ≠ HttpPostVerb → verb ≠ "generic" →
      handlerDispatch verb "/shutdown" = HandlerTag.verbNotSupportedH) := by
  refine ⟨by decide, by decide, by decide, ?_⟩
  intro h1 h2 h3
  simp only [HttpGetVerb] at h1
  simp only [HttpPostVerb] at h2
  have hmap : verbHttpMap verb = none := by
    simp [verbHttpMap, HttpGetVerb, HttpPostVerb, h1, h2, h3]
  have hsplit : splitSlash "/shutdown" = ["", "shutdown"] := by decide
  simp [handlerDispatch, hsplit, hmap]

theorem shutdown_reachable_only_via_get_and_post_witness :
    handlerDispatch "PATCH" "/shutdown" = HandlerTag.verbNotSupportedH :=
  (shutdown_reachable_only_via_get_and_post "PATCH").2.2.2
    (by decide) (by decide) (by decide)

end Dispatch
